import Mathlib

/-!
# serPy SER codec — shallow embedding and verification

This file embeds the SER binary codec of `serPy/serPy.py` (`write_ser`,
`read_ser`) into Lean 4 and settles the specification claims about it.

Modelling conventions:
* A byte stream is a `List Nat` (each entry a byte value).
* Python `str` text fields are modelled as their UTF-8 byte lists; the
  theorems that exercise text decoding restrict those bytes to ASCII
  (< 128), where Python's UTF-8 decode is the identity on bytes and
  `str.strip()` strips exactly the six ASCII whitespace characters.
* `struct.pack("<I", n)` / `("<Q", n)` raise for out-of-range values: we
  model header packing as an `Option`, and `write_ser` as returning the
  bytes actually written to the destination before any error, paired
  with an optional error (mirroring the fact that the Python code writes
  incrementally to an open file and an exception leaves the partial file).
* `struct.pack("<14s"/"<40s", s)` silently truncates long inputs and
  null-pads short ones (`packBytes`).
* numpy `astype(uint8/uint16)` wraps values modulo 2^8 / 2^16
  (`natToBytesLE` keeps only the low-order digits); `tobytes` /
  `frombuffer` use the machine's little-endian layout.
* `file.read(n)` returns `min n remaining` bytes, i.e. `List.take`.
* Error sites are enumerated by `WriteError` / `SerError`, one
  constructor per distinct failure site of the Python code (all of which
  raise `ValueError` / `struct.error` at runtime).
-/

set_option maxRecDepth 100000

deriving instance DecidableEq for Except

namespace SerPy

/-- The UTF-8 bytes of the string "LUCAM-RECORDER" (exactly 14 bytes). -/
def lucamId : List Nat :=
  [76, 85, 67, 65, 77, 45, 82, 69, 67, 79, 82, 68, 69, 82]

/-- Little-endian value of a byte list (`struct.unpack` of "<I"/"<Q" slices). -/
def bytesToNatLE : List Nat → Nat
  | [] => 0
  | b :: rest => b + 256 * bytesToNatLE rest

/-- `k` little-endian base-256 digits of `n`; keeps only the low `k` digits,
like numpy's `astype` conversion to a `k`-byte unsigned integer. -/
def natToBytesLE : Nat → Nat → List Nat
  | 0, _ => []
  | k + 1, n => n % 256 :: natToBytesLE k (n / 256)

/-- `struct.pack` of an "Ns" field: truncate to the width or pad with NULs. -/
def packBytes (width : Nat) (s : List Nat) : List Nat :=
  s.take width ++ List.replicate (width - s.length) 0

/-- `struct.pack("<I", n)`: fails (raises) when `n` does not fit in 32 bits. -/
def pack32 (n : Nat) : Option (List Nat) :=
  if n < 2 ^ 32 then some (natToBytesLE 4 n) else none

/-- `struct.pack("<Q", n)`: fails (raises) when `n` does not fit in 64 bits. -/
def pack64 (n : Nat) : Option (List Nat) :=
  if n < 2 ^ 64 then some (natToBytesLE 8 n) else none

/-- ASCII whitespace bytes stripped by Python's `str.strip()`. -/
def isSpaceByte (b : Nat) : Bool :=
  b == 32 || b == 9 || b == 10 || b == 11 || b == 12 || b == 13

/-- `bytes.rstrip(b"\x00")`: drop trailing NUL bytes. -/
def rstripNulls (l : List Nat) : List Nat :=
  (l.reverse.dropWhile (· == 0)).reverse

/-- `str.strip()` on ASCII text: drop leading and trailing whitespace. -/
def stripWs (l : List Nat) : List Nat :=
  ((l.dropWhile isSpaceByte).reverse.dropWhile isSpaceByte).reverse

/-- `_decode_field`: UTF-8 decode (identity on ASCII bytes), strip trailing
NULs, then strip surrounding whitespace. -/
def decodeField (l : List Nat) : List Nat :=
  stripWs (rstripNulls l)

/-- The in-memory SER metadata (the `metadata` dict of the Python code).
Text fields are UTF-8 byte lists. -/
structure Metadata where
  file_id : List Nat
  lu_id : Nat
  color_id : Nat
  little_endian : Bool
  image_width : Nat
  image_height : Nat
  pixel_depth : Nat
  frame_count : Nat
  observer : List Nat
  instrument : List Nat
  telescope : List Nat
  date_time : Nat
  date_time_utc : Nat
deriving DecidableEq, Repr

/-- A frame: a 2-D raster as a list of rows of samples. -/
abbrev Frame := List (List Nat)

/-- All integer header fields fit their wire widths (the condition under
which the thirteen `struct.pack` conversions in `write_ser` all succeed). -/
def headerRangesOK (m : Metadata) : Bool :=
  m.lu_id < 2 ^ 32 && m.color_id < 2 ^ 32 && m.image_width < 2 ^ 32 &&
  m.image_height < 2 ^ 32 && m.pixel_depth < 2 ^ 32 && m.frame_count < 2 ^ 32 &&
  m.date_time < 2 ^ 64 && m.date_time_utc < 2 ^ 64

/-- `struct.pack("<14sIIIIIII40s40s40s8s8s", ...)` of the header fields:
178 bytes on success, failure when an integer field is out of range. -/
def packHeader (m : Metadata) : Option (List Nat) :=
  if headerRangesOK m then
    some (packBytes 14 m.file_id ++
      (natToBytesLE 4 m.lu_id ++
      (natToBytesLE 4 m.color_id ++
      (natToBytesLE 4 (if m.little_endian then 1 else 0) ++
      (natToBytesLE 4 m.image_width ++
      (natToBytesLE 4 m.image_height ++
      (natToBytesLE 4 m.pixel_depth ++
      (natToBytesLE 4 m.frame_count ++
      (packBytes 40 m.observer ++
      (packBytes 40 m.instrument ++
      (packBytes 40 m.telescope ++
      (natToBytesLE 8 m.date_time ++
      natToBytesLE 8 m.date_time_utc))))))))))))
  else none

/-- The distinct failure sites of `write_ser` (each raises `ValueError`,
except `packError` which is `struct.error`). -/
inductive WriteError where
  | badFileId
  | frameCountMismatch
  | frameShapeMismatch
  | timestampCountMismatch
  | packError
deriving DecidableEq, Repr

/-- `frame.shape == (h, w)` for the list-of-rows frame model. -/
def shapeOK (h w : Nat) (f : Frame) : Bool :=
  f.length == h && (List.all f fun r => r.length == w)

/-- `frame.astype(dtype).tobytes()`: row-major samples, each as `sw`
little-endian bytes (values wrap modulo `2^(8*sw)` as `astype` does). -/
def frameToBytes (sw : Nat) (f : Frame) : List Nat :=
  (f.flatten.map (natToBytesLE sw)).flatten

/-- The frame-writing loop of `write_ser`: emits each frame's bytes until a
shape mismatch aborts it; returns the bytes written plus an optional error. -/
def writeFrames (h w sw : Nat) : List Frame → List Nat × Option WriteError
  | [] => ([], none)
  | f :: rest =>
    if shapeOK h w f then
      let out := writeFrames h w sw rest
      (frameToBytes sw f ++ out.1, out.2)
    else ([], some .frameShapeMismatch)

/-- The timestamp-writing loop of `write_ser`: each value packed with
`struct.pack("<Q", t)`, which raises on out-of-range values mid-loop. -/
def packTimestamps : List Nat → List Nat × Option WriteError
  | [] => ([], none)
  | t :: rest =>
    match pack64 t with
    | none => ([], some .packError)
    | some b =>
      let out := packTimestamps rest
      (b ++ out.1, out.2)

/-- `write_ser(output_path, metadata, frames, timestamps)`: returns the bytes
written to the destination before any error, and the error if one was
raised.  Mirrors the Python control flow: the `file_id` and frame-count
checks run before the file is opened; the header is packed and written
next; each frame's shape is checked just before that frame is written;
the timestamp block is handled last, with Python's `if timestamps:`
treating an empty list like `None`. -/
def write_ser (m : Metadata) (frames : List Frame) (timestamps : Option (List Nat)) :
    List Nat × Option WriteError :=
  if m.file_id ≠ lucamId then ([], some .badFileId)
  else if frames.length ≠ m.frame_count then ([], some .frameCountMismatch)
  else
    match packHeader m with
    | none => ([], some .packError)
    | some hdr =>
      match writeFrames m.image_height m.image_width
          (if m.pixel_depth == 8 then 1 else 2) frames with
      | (fb, some e) => (hdr ++ fb, some e)
      | (fb, none) =>
        match timestamps with
        | none => (hdr ++ fb, none)
        | some tl =>
          if tl.isEmpty then (hdr ++ fb, none)
          else if tl.length ≠ m.frame_count then (hdr ++ fb, some .timestampCountMismatch)
          else (hdr ++ fb ++ (packTimestamps tl).1, (packTimestamps tl).2)

/-- The distinct failure sites of `read_ser` (all raise at runtime:
`struct.error` for a short header, `ValueError` otherwise). -/
inductive SerError where
  | headerTruncated
  | badFileId
  | eofFrames
  | bufferSize
  | reshapeMismatch
deriving DecidableEq, Repr

/-- Fuel-indexed helper for `bytesToSamplesLE` (structural recursion on the
fuel, which starts at the byte count and never runs out since each step
consumes at least one byte). -/
def bytesToSamplesAux : Nat → Nat → List Nat → List Nat
  | 0, _, _ => []
  | _, _, [] => []
  | fuel + 1, es, b :: rest =>
    bytesToNatLE (b :: rest.take (es - 1)) :: bytesToSamplesAux fuel es (rest.drop (es - 1))

/-- `np.frombuffer(data, dtype)` for `es`-byte little-endian samples
(assumes `data.length` is a multiple of `es`, checked by the caller). -/
def bytesToSamplesLE (es : Nat) (l : List Nat) : List Nat :=
  bytesToSamplesAux l.length es l

/-- Fuel-indexed helper for `chunkRows`. -/
def chunkRowsAux : Nat → Nat → List Nat → List (List Nat)
  | 0, _, _ => []
  | _, _, [] => []
  | _ + 1, 0, _ :: _ => []
  | fuel + 1, w + 1, b :: rest => (b :: rest.take w) :: chunkRowsAux fuel (w + 1) (rest.drop w)

/-- `reshape((h, w))` step: split a flat sample list into rows of `w`. -/
def chunkRows (w : Nat) (l : List Nat) : List (List Nat) :=
  chunkRowsAux l.length w l

/-- The frame-reading loop of `read_ser`: for each of `fc` frames, read
`fsize` bytes (short at end of stream), fail on an empty read
("Unexpected end of file"), on a byte count that is not a multiple of the
sample size (`np.frombuffer`), or on a sample count different from `h*w`
(`reshape`); returns the decoded frames and the unconsumed rest. -/
def readFrames (es fsize h w : Nat) : Nat → List Nat → Except SerError (List Frame × List Nat)
  | 0, rest => .ok ([], rest)
  | fc + 1, rest =>
    if (rest.take fsize).isEmpty then .error .eofFrames
    else if (rest.take fsize).length % es ≠ 0 then .error .bufferSize
    else if (rest.take fsize).length / es ≠ h * w then .error .reshapeMismatch
    else
      match readFrames es fsize h w fc (rest.drop fsize) with
      | .error e => .error e
      | .ok (fl, rest') => .ok (chunkRows w (bytesToSamplesLE es (rest.take fsize)) :: fl, rest')

/-- The timestamp-reading step of `read_ser`: if at least `8*fc` bytes
remain, decode `fc` little-endian u64 values; otherwise report absence. -/
def readTimestamps (fc : Nat) (rest : List Nat) : Option (List Nat) :=
  if 8 * fc ≤ rest.length then
    some ((List.range fc).map fun i => bytesToNatLE ((rest.drop (8 * i)).take 8))
  else none

/-- The little-endian integer stored at a fixed offset/width of a byte
slice (one field of `struct.unpack`). -/
def sliceNat (off len : Nat) (l : List Nat) : Nat :=
  bytesToNatLE ((l.drop off).take len)

/-- The raw bytes of a fixed-width field of a byte slice. -/
def sliceBytes (off len : Nat) (l : List Nat) : List Nat :=
  (l.drop off).take len

/-- The `metadata` dict built by `read_ser` from the 178 header bytes:
each field unpacked at its fixed offset, text fields decoded and trimmed,
`little_endian` converted with `bool(...)`. -/
def parseMeta (hdr : List Nat) : Metadata :=
  { file_id := decodeField (sliceBytes 0 14 hdr)
    lu_id := sliceNat 14 4 hdr
    color_id := sliceNat 18 4 hdr
    little_endian := sliceNat 22 4 hdr ≠ 0
    image_width := sliceNat 26 4 hdr
    image_height := sliceNat 30 4 hdr
    pixel_depth := sliceNat 34 4 hdr
    frame_count := sliceNat 38 4 hdr
    observer := decodeField (sliceBytes 42 40 hdr)
    instrument := decodeField (sliceBytes 82 40 hdr)
    telescope := decodeField (sliceBytes 122 40 hdr)
    date_time := sliceNat 162 8 hdr
    date_time_utc := sliceNat 170 8 hdr }

/-- `read_ser(input_path)` on the file's bytes: header unpack and
validation, metadata construction, frame loop, timestamp sniffing. -/
def read_ser (data : List Nat) : Except SerError (Metadata × List Frame × Option (List Nat)) :=
  if (data.take 178).length < 178 then .error .headerTruncated
  else if (data.take 178).take 14 ≠ lucamId then .error .badFileId
  else
    let md := parseMeta (data.take 178)
    match readFrames (if md.pixel_depth == 8 then 1 else 2)
        (md.image_width * md.image_height * (md.pixel_depth / 8))
        md.image_height md.image_width md.frame_count (data.drop 178) with
    | .error e => .error e
    | .ok (frames, rest) => .ok (md, frames, readTimestamps md.frame_count rest)

/-! ## Basic length and roundtrip lemmas -/

theorem natToBytesLE_length (k n : Nat) : (natToBytesLE k n).length = k := by
  induction k generalizing n with
  | zero => rfl
  | succ k ih => simp [natToBytesLE, ih]

theorem packBytes_length (w : Nat) (s : List Nat) : (packBytes w s).length = w := by
  simp only [packBytes, List.length_append, List.length_take, List.length_replicate]
  omega

theorem bytesToNatLE_natToBytesLE (k n : Nat) (h : n < 256 ^ k) :
    bytesToNatLE (natToBytesLE k n) = n := by
  induction k generalizing n with
  | zero =>
    simp only [pow_zero, Nat.lt_one_iff] at h
    simp [natToBytesLE, bytesToNatLE, h]
  | succ k ih =>
    have hdiv : n / 256 < 256 ^ k := by
      rw [Nat.div_lt_iff_lt_mul (by norm_num : (0:Nat) < 256)]
      calc n < 256 ^ (k + 1) := h
        _ = 256 ^ k * 256 := by rw [pow_succ]
    simp only [natToBytesLE, bytesToNatLE, ih (n / 256) hdiv]
    omega

theorem packHeader_length (m : Metadata) (hdr : List Nat) (h : packHeader m = some hdr) :
    hdr.length = 178 := by
  unfold packHeader at h
  split at h
  · cases h
    simp [List.length_append, packBytes_length, natToBytesLE_length]
  · cases h

/-! ## Trimming lemmas -/

theorem dropWhile_replicate_zero_append (k : Nat) (l : List Nat) :
    (List.replicate k 0 ++ l).dropWhile (· == 0) = l.dropWhile (· == 0) := by
  induction k with
  | zero => rfl
  | succ n ih =>
    rw [List.replicate_succ, List.cons_append, List.dropWhile_cons]
    simp only [show ((0:Nat) == 0) = true from rfl, if_true]
    exact ih

theorem rstripNulls_append_replicate (l : List Nat) (k : Nat) :
    rstripNulls (l ++ List.replicate k 0) = rstripNulls l := by
  unfold rstripNulls
  rw [List.reverse_append, List.reverse_replicate, dropWhile_replicate_zero_append]

theorem decodeField_packBytes_of_le (w : Nat) (s : List Nat) (h : s.length ≤ w) :
    decodeField (packBytes w s) = decodeField s := by
  unfold packBytes decodeField
  rw [List.take_of_length_le h, rstripNulls_append_replicate]

/-! ## Frame byte-size lemmas -/

theorem flatten_length_const (f : List (List Nat)) (w : Nat) (h : ∀ r ∈ f, r.length = w) :
    f.flatten.length = f.length * w := by
  induction f with
  | nil => simp
  | cons r t ih =>
    simp only [List.flatten_cons, List.length_append, List.length_cons,
      h r (by simp), ih (fun x hx => h x (by simp [hx]))]
    ring

theorem frameToBytes_length (sw : Nat) (f : Frame) (h w : Nat)
    (hh : f.length = h) (hw : ∀ r ∈ f, r.length = w) :
    (frameToBytes sw f).length = h * w * sw := by
  unfold frameToBytes
  rw [flatten_length_const _ sw ?_]
  · rw [List.length_map, flatten_length_const f w hw, hh, Nat.mul_assoc]
  · intro r hr
    simp only [List.mem_map] at hr
    obtain ⟨x, _, rfl⟩ := hr
    exact natToBytesLE_length sw x

/-! ## Sample decode/encode roundtrip -/

theorem bytesToSamplesAux_fuel (es : Nat) :
    ∀ fuel fuel' (l : List Nat), l.length ≤ fuel → l.length ≤ fuel' →
      bytesToSamplesAux fuel es l = bytesToSamplesAux fuel' es l := by
  intro fuel
  induction fuel with
  | zero =>
    intro fuel' l h1 h2
    have hl : l = [] := List.eq_nil_of_length_eq_zero (by omega)
    subst hl
    cases fuel' <;> rfl
  | succ f ih =>
    intro fuel' l h1 h2
    cases l with
    | nil => cases fuel' <;> rfl
    | cons b rest =>
      cases fuel' with
      | zero => simp at h2
      | succ f' =>
        simp only [bytesToSamplesAux]
        congr 1
        refine ih f' (rest.drop (es - 1)) ?_ ?_ <;>
          simp only [List.length_drop] <;> simp at h1 h2 <;> omega

theorem bytesToSamplesLE_cons_block (es : Nat) (hes : 0 < es) (b : List Nat)
    (hb : b.length = es) (rest : List Nat) :
    bytesToSamplesLE es (b ++ rest) = bytesToNatLE b :: bytesToSamplesLE es rest := by
  cases b with
  | nil => simp at hb; omega
  | cons x t =>
    have ht : t.length = es - 1 := by simp at hb; omega
    unfold bytesToSamplesLE
    rw [List.cons_append]
    have hlen : (x :: (t ++ rest)).length = (t ++ rest).length + 1 := rfl
    rw [hlen]
    simp only [bytesToSamplesAux]
    rw [List.take_left' ht, List.drop_left' ht]
    congr 1
    refine bytesToSamplesAux_fuel es _ _ rest ?_ le_rfl
    simp only [List.length_append]
    omega

theorem bytesToSamplesLE_encode (es : Nat) (hes : 0 < es) (l : List Nat)
    (h : ∀ s ∈ l, s < 256 ^ es) :
    bytesToSamplesLE es ((l.map (natToBytesLE es)).flatten) = l := by
  induction l with
  | nil => rfl
  | cons s t ih =>
    rw [List.map_cons, List.flatten_cons,
      bytesToSamplesLE_cons_block es hes _ (natToBytesLE_length es s),
      bytesToNatLE_natToBytesLE es s (h s (by simp)),
      ih (fun x hx => h x (by simp [hx]))]

theorem chunkRowsAux_fuel (w : Nat) :
    ∀ fuel fuel' (l : List Nat), l.length ≤ fuel → l.length ≤ fuel' →
      chunkRowsAux fuel w l = chunkRowsAux fuel' w l := by
  intro fuel
  induction fuel with
  | zero =>
    intro fuel' l h1 h2
    have hl : l = [] := List.eq_nil_of_length_eq_zero (by omega)
    subst hl
    cases fuel' <;> simp [chunkRowsAux]
  | succ f ih =>
    intro fuel' l h1 h2
    cases l with
    | nil => cases fuel' <;> simp [chunkRowsAux]
    | cons b rest =>
      cases fuel' with
      | zero => simp at h2
      | succ f' =>
        cases w with
        | zero => rfl
        | succ w' =>
          simp only [chunkRowsAux]
          congr 1
          refine ih f' (rest.drop w') ?_ ?_ <;>
            simp only [List.length_drop] <;> simp at h1 h2 <;> omega

theorem chunkRows_flatten (w : Nat) (hw : 0 < w) (f : List (List Nat))
    (h : ∀ r ∈ f, r.length = w) :
    chunkRows w f.flatten = f := by
  induction f with
  | nil => rfl
  | cons r t ih =>
    obtain ⟨w', rfl⟩ : ∃ w', w = w' + 1 := ⟨w - 1, by omega⟩
    have hr : r.length = w' + 1 := h r (by simp)
    cases r with
    | nil => simp at hr
    | cons b rb =>
      have hrb : rb.length = w' := by simp at hr; omega
      unfold chunkRows
      rw [List.flatten_cons, List.cons_append]
      have hlen : (b :: (rb ++ t.flatten)).length = (rb ++ t.flatten).length + 1 := rfl
      rw [hlen]
      simp only [chunkRowsAux]
      rw [List.take_left' hrb, List.drop_left' hrb]
      have hfold : chunkRowsAux (rb ++ t.flatten).length (w' + 1) t.flatten =
          chunkRows (w' + 1) t.flatten := by
        refine chunkRowsAux_fuel (w' + 1) _ _ t.flatten ?_ le_rfl
        simp only [List.length_append]
        omega
      rw [hfold, ih (fun x hx => h x (by simp [hx]))]

/-! ## Write-side loop lemmas -/

theorem writeFrames_ok (h w sw : Nat) (fs : List Frame)
    (hs : ∀ f ∈ fs, shapeOK h w f = true) :
    writeFrames h w sw fs = ((fs.map (frameToBytes sw)).flatten, none) := by
  induction fs with
  | nil => rfl
  | cons f t ih =>
    rw [writeFrames, if_pos (hs f (by simp)), ih (fun x hx => hs x (by simp [hx])),
      List.map_cons, List.flatten_cons]

theorem writeFrames_error_shape (h w sw : Nat) (fs : List Frame) (e : WriteError)
    (he : (writeFrames h w sw fs).2 = some e) : e = .frameShapeMismatch := by
  induction fs with
  | nil => cases he
  | cons f t ih =>
    rw [writeFrames] at he
    split at he
    · exact ih he
    · cases he; rfl

theorem packTimestamps_ok (tl : List Nat) (h : ∀ t ∈ tl, t < 2 ^ 64) :
    packTimestamps tl = ((tl.map (natToBytesLE 8)).flatten, none) := by
  induction tl with
  | nil => rfl
  | cons t r ih =>
    rw [packTimestamps]
    have : pack64 t = some (natToBytesLE 8 t) := by
      unfold pack64
      rw [if_pos (h t (by simp))]
    rw [this, ih (fun x hx => h x (by simp [hx])), List.map_cons, List.flatten_cons]

theorem packTimestamps_error_pack (tl : List Nat) (e : WriteError)
    (he : (packTimestamps tl).2 = some e) : e = .packError := by
  induction tl with
  | nil => cases he
  | cons t r ih =>
    rw [packTimestamps] at he
    split at he
    · cases he; rfl
    · exact ih he

/-! ## Frame-loop lemmas -/

theorem readFrames_encoded (es fsize h w : Nat) (hes : 0 < es) (hh : 0 < h) (hw : 0 < w)
    (hf : fsize = h * w * es) (fs : List Frame) (extra : List Nat)
    (hshape : ∀ f ∈ fs, f.length = h ∧ ∀ r ∈ f, r.length = w)
    (hrange : ∀ f ∈ fs, ∀ r ∈ f, ∀ s ∈ r, s < 256 ^ es) :
    readFrames es fsize h w fs.length ((fs.map (frameToBytes es)).flatten ++ extra) =
      .ok (fs, extra) := by
  induction fs with
  | nil => simp [readFrames]
  | cons f t ih =>
    obtain ⟨hfl, hfr⟩ := hshape f (by simp)
    have hlen : (frameToBytes es f).length = fsize := by
      rw [frameToBytes_length es f h w hfl hfr, hf]
    have hpos : 0 < fsize := by
      rw [hf]
      exact Nat.mul_pos (Nat.mul_pos hh hw) hes
    have hne : (frameToBytes es f).isEmpty = false := by
      cases hfe : frameToBytes es f with
      | nil => rw [hfe] at hlen; simp at hlen; omega
      | cons a b => rfl
    have hmod : (frameToBytes es f).length % es = 0 := by
      rw [hlen, hf]
      exact Nat.mul_mod_left _ _
    have hdiv : (frameToBytes es f).length / es = h * w := by
      rw [hlen, hf]
      exact Nat.mul_div_cancel _ hes
    rw [List.map_cons, List.flatten_cons, List.append_assoc, List.length_cons, readFrames,
      List.take_left' hlen, List.drop_left' hlen,
      if_neg (by simp [hne]), if_neg (by simp [hmod]), if_neg (by simp [hdiv]),
      ih (fun x hx => hshape x (by simp [hx])) (fun x hx => hrange x (by simp [hx]))]
    have hsamples : bytesToSamplesLE es (frameToBytes es f) = f.flatten := by
      unfold frameToBytes
      refine bytesToSamplesLE_encode es hes f.flatten ?_
      intro s hs
      simp only [List.mem_flatten] at hs
      obtain ⟨r, hr, hsr⟩ := hs
      exact hrange f (by simp) r hr s hsr
    rw [hsamples, chunkRows_flatten w hw f hfr]

theorem readFrames_truncation (es fsize h w : Nat) (hf : fsize = w * h * es) :
    ∀ fc rest,
      ((rest : List Nat).length < fc * fsize →
        ∃ e, readFrames es fsize h w fc rest = .error e) ∧
      (∀ fl rest', readFrames es fsize h w fc rest = .ok (fl, rest') →
        rest' = rest.drop (fc * fsize) ∧ fc * fsize ≤ rest.length) := by
  intro fc
  induction fc with
  | zero =>
    intro rest
    refine ⟨fun hlt => absurd hlt (by omega), fun fl rest' hok => ?_⟩
    rw [readFrames] at hok
    cases hok
    simp
  | succ fc ih =>
    intro rest
    by_cases hc1 : (rest.take fsize).isEmpty
    · refine ⟨fun _ => ⟨.eofFrames, by rw [readFrames, if_pos hc1]⟩, fun fl rest' hok => ?_⟩
      rw [readFrames, if_pos hc1] at hok
      cases hok
    · by_cases hc2 : (rest.take fsize).length % es ≠ 0
      · refine ⟨fun _ => ⟨.bufferSize, by rw [readFrames, if_neg hc1, if_pos hc2]⟩,
          fun fl rest' hok => ?_⟩
        rw [readFrames, if_neg hc1, if_pos hc2] at hok
        cases hok
      · by_cases hc3 : (rest.take fsize).length / es ≠ h * w
        · refine ⟨fun _ =>
            ⟨.reshapeMismatch, by rw [readFrames, if_neg hc1, if_neg hc2, if_pos hc3]⟩,
            fun fl rest' hok => ?_⟩
          rw [readFrames, if_neg hc1, if_neg hc2, if_pos hc3] at hok
          cases hok
        · -- all three checks pass, so the take was a full frame of fsize bytes
          push_neg at hc2 hc3
          have hmin : (rest.take fsize).length = min fsize rest.length := List.length_take _ _
          have hfull : (rest.take fsize).length = fsize := by
            have hdm := Nat.div_add_mod (rest.take fsize).length es
            rw [hc3, hc2] at hdm
            rw [← hdm, hf]
            ring
          have hle : fsize ≤ rest.length := by omega
          have hexp : (fc + 1) * fsize = fc * fsize + fsize := by ring
          constructor
          · intro hlt
            have hlt' : (rest.drop fsize).length < fc * fsize := by
              simp only [List.length_drop]
              omega
            obtain ⟨e, he⟩ := (ih (rest.drop fsize)).1 hlt'
            refine ⟨e, ?_⟩
            rw [readFrames, if_neg hc1, if_neg (fun hx => hx hc2), if_neg (fun hx => hx hc3), he]
          · intro fl rest' hok
            rw [readFrames, if_neg hc1, if_neg (fun hx => hx hc2), if_neg (fun hx => hx hc3)] at hok
            cases hrec : readFrames es fsize h w fc (rest.drop fsize) with
            | error e => rw [hrec] at hok; cases hok
            | ok p =>
              obtain ⟨fl0, rest0⟩ := p
              obtain ⟨h1, h2⟩ := (ih (rest.drop fsize)).2 fl0 rest0 hrec
              simp only [List.length_drop] at h2
              rw [hrec] at hok
              cases hok
              constructor
              · rw [h1, List.drop_drop]
                congr 1
                ring
              · omega

/-! ## Header parse/pack correspondence -/

/-- What `read_ser` reconstructs from a header that `write_ser` packed for
metadata `m`: identical except that the text fields go through the fixed
40-byte window (truncation to 40 bytes, then trimming). -/
def decodeMeta (m : Metadata) : Metadata :=
  { file_id := m.file_id
    lu_id := m.lu_id
    color_id := m.color_id
    little_endian := m.little_endian
    image_width := m.image_width
    image_height := m.image_height
    pixel_depth := m.pixel_depth
    frame_count := m.frame_count
    observer := decodeField (packBytes 40 m.observer)
    instrument := decodeField (packBytes 40 m.instrument)
    telescope := decodeField (packBytes 40 m.telescope)
    date_time := m.date_time
    date_time_utc := m.date_time_utc }

theorem decide_flag (b : Bool) : decide ((if b then (1:Nat) else 0) ≠ 0) = b := by
  cases b <;> rfl

theorem packHeader_some_inv (m : Metadata) (hdr : List Nat) (hp : packHeader m = some hdr) :
    headerRangesOK m = true ∧
    hdr = packBytes 14 m.file_id ++
      (natToBytesLE 4 m.lu_id ++
      (natToBytesLE 4 m.color_id ++
      (natToBytesLE 4 (if m.little_endian then 1 else 0) ++
      (natToBytesLE 4 m.image_width ++
      (natToBytesLE 4 m.image_height ++
      (natToBytesLE 4 m.pixel_depth ++
      (natToBytesLE 4 m.frame_count ++
      (packBytes 40 m.observer ++
      (packBytes 40 m.instrument ++
      (packBytes 40 m.telescope ++
      (natToBytesLE 8 m.date_time ++
      natToBytesLE 8 m.date_time_utc))))))))))) := by
  unfold packHeader at hp
  split at hp
  · cases hp
    exact ⟨by assumption, rfl⟩
  · cases hp

theorem parseMeta_packHeader (m : Metadata) (hdr : List Nat)
    (hp : packHeader m = some hdr) (hid : m.file_id = lucamId) :
    parseMeta hdr = decodeMeta m := by
  obtain ⟨hrng, hstruct⟩ := packHeader_some_inv m hdr hp
  simp only [headerRangesOK, Bool.and_eq_true, decide_eq_true_eq] at hrng
  obtain ⟨⟨⟨⟨⟨⟨⟨b1, b2⟩, b3⟩, b4⟩, b5⟩, b6⟩, b7⟩, b8⟩ := hrng
  have c32 : (2:Nat) ^ 32 = 256 ^ 4 := by norm_num
  have c64 : (2:Nat) ^ 64 = 256 ^ 8 := by norm_num
  have hA : (packBytes 14 m.file_id).length = 14 := packBytes_length _ _
  have e14 : hdr.drop 14 = natToBytesLE 4 m.lu_id ++
      (natToBytesLE 4 m.color_id ++
      (natToBytesLE 4 (if m.little_endian then 1 else 0) ++
      (natToBytesLE 4 m.image_width ++
      (natToBytesLE 4 m.image_height ++
      (natToBytesLE 4 m.pixel_depth ++
      (natToBytesLE 4 m.frame_count ++
      (packBytes 40 m.observer ++
      (packBytes 40 m.instrument ++
      (packBytes 40 m.telescope ++
      (natToBytesLE 8 m.date_time ++
      natToBytesLE 8 m.date_time_utc)))))))))) := by
    rw [hstruct]
    exact List.drop_left' hA
  have e18 : hdr.drop 18 = natToBytesLE 4 m.color_id ++
      (natToBytesLE 4 (if m.little_endian then 1 else 0) ++
      (natToBytesLE 4 m.image_width ++
      (natToBytesLE 4 m.image_height ++
      (natToBytesLE 4 m.pixel_depth ++
      (natToBytesLE 4 m.frame_count ++
      (packBytes 40 m.observer ++
      (packBytes 40 m.instrument ++
      (packBytes 40 m.telescope ++
      (natToBytesLE 8 m.date_time ++
      natToBytesLE 8 m.date_time_utc))))))))) := by
    have h1 : hdr.drop 18 = (hdr.drop 14).drop 4 := by rw [List.drop_drop]
    rw [h1, e14]
    exact List.drop_left' (natToBytesLE_length 4 _)
  have e22 : hdr.drop 22 = natToBytesLE 4 (if m.little_endian then 1 else 0) ++
      (natToBytesLE 4 m.image_width ++
      (natToBytesLE 4 m.image_height ++
      (natToBytesLE 4 m.pixel_depth ++
      (natToBytesLE 4 m.frame_count ++
      (packBytes 40 m.observer ++
      (packBytes 40 m.instrument ++
      (packBytes 40 m.telescope ++
      (natToBytesLE 8 m.date_time ++
      natToBytesLE 8 m.date_time_utc)))))))) := by
    have h1 : hdr.drop 22 = (hdr.drop 18).drop 4 := by rw [List.drop_drop]
    rw [h1, e18]
    exact List.drop_left' (natToBytesLE_length 4 _)
  have e26 : hdr.drop 26 = natToBytesLE 4 m.image_width ++
      (natToBytesLE 4 m.image_height ++
      (natToBytesLE 4 m.pixel_depth ++
      (natToBytesLE 4 m.frame_count ++
      (packBytes 40 m.observer ++
      (packBytes 40 m.instrument ++
      (packBytes 40 m.telescope ++
      (natToBytesLE 8 m.date_time ++
      natToBytesLE 8 m.date_time_utc))))))) := by
    have h1 : hdr.drop 26 = (hdr.drop 22).drop 4 := by rw [List.drop_drop]
    rw [h1, e22]
    exact List.drop_left' (natToBytesLE_length 4 _)
  have e30 : hdr.drop 30 = natToBytesLE 4 m.image_height ++
      (natToBytesLE 4 m.pixel_depth ++
      (natToBytesLE 4 m.frame_count ++
      (packBytes 40 m.observer ++
      (packBytes 40 m.instrument ++
      (packBytes 40 m.telescope ++
      (natToBytesLE 8 m.date_time ++
      natToBytesLE 8 m.date_time_utc)))))) := by
    have h1 : hdr.drop 30 = (hdr.drop 26).drop 4 := by rw [List.drop_drop]
    rw [h1, e26]
    exact List.drop_left' (natToBytesLE_length 4 _)
  have e34 : hdr.drop 34 = natToBytesLE 4 m.pixel_depth ++
      (natToBytesLE 4 m.frame_count ++
      (packBytes 40 m.observer ++
      (packBytes 40 m.instrument ++
      (packBytes 40 m.telescope ++
      (natToBytesLE 8 m.date_time ++
      natToBytesLE 8 m.date_time_utc))))) := by
    have h1 : hdr.drop 34 = (hdr.drop 30).drop 4 := by rw [List.drop_drop]
    rw [h1, e30]
    exact List.drop_left' (natToBytesLE_length 4 _)
  have e38 : hdr.drop 38 = natToBytesLE 4 m.frame_count ++
      (packBytes 40 m.observer ++
      (packBytes 40 m.instrument ++
      (packBytes 40 m.telescope ++
      (natToBytesLE 8 m.date_time ++
      natToBytesLE 8 m.date_time_utc)))) := by
    have h1 : hdr.drop 38 = (hdr.drop 34).drop 4 := by rw [List.drop_drop]
    rw [h1, e34]
    exact List.drop_left' (natToBytesLE_length 4 _)
  have e42 : hdr.drop 42 = packBytes 40 m.observer ++
      (packBytes 40 m.instrument ++
      (packBytes 40 m.telescope ++
      (natToBytesLE 8 m.date_time ++
      natToBytesLE 8 m.date_time_utc))) := by
    have h1 : hdr.drop 42 = (hdr.drop 38).drop 4 := by rw [List.drop_drop]
    rw [h1, e38]
    exact List.drop_left' (natToBytesLE_length 4 _)
  have e82 : hdr.drop 82 = packBytes 40 m.instrument ++
      (packBytes 40 m.telescope ++
      (natToBytesLE 8 m.date_time ++
      natToBytesLE 8 m.date_time_utc)) := by
    have h1 : hdr.drop 82 = (hdr.drop 42).drop 40 := by rw [List.drop_drop]
    rw [h1, e42]
    exact List.drop_left' (packBytes_length _ _)
  have e122 : hdr.drop 122 = packBytes 40 m.telescope ++
      (natToBytesLE 8 m.date_time ++
      natToBytesLE 8 m.date_time_utc) := by
    have h1 : hdr.drop 122 = (hdr.drop 82).drop 40 := by rw [List.drop_drop]
    rw [h1, e82]
    exact List.drop_left' (packBytes_length _ _)
  have e162 : hdr.drop 162 = natToBytesLE 8 m.date_time ++
      natToBytesLE 8 m.date_time_utc := by
    have h1 : hdr.drop 162 = (hdr.drop 122).drop 40 := by rw [List.drop_drop]
    rw [h1, e122]
    exact List.drop_left' (packBytes_length _ _)
  have e170 : hdr.drop 170 = natToBytesLE 8 m.date_time_utc := by
    have h1 : hdr.drop 170 = (hdr.drop 162).drop 8 := by rw [List.drop_drop]
    rw [h1, e162]
    exact List.drop_left' (natToBytesLE_length 8 _)
  have hfid : sliceBytes 0 14 hdr = packBytes 14 m.file_id := by
    unfold sliceBytes
    rw [List.drop_zero, hstruct]
    exact List.take_left' hA
  have hlu : sliceNat 14 4 hdr = m.lu_id := by
    unfold sliceNat
    rw [e14, List.take_left' (natToBytesLE_length 4 _)]
    exact bytesToNatLE_natToBytesLE 4 _ (by omega)
  have hcolor : sliceNat 18 4 hdr = m.color_id := by
    unfold sliceNat
    rw [e18, List.take_left' (natToBytesLE_length 4 _)]
    exact bytesToNatLE_natToBytesLE 4 _ (by omega)
  have hle : sliceNat 22 4 hdr = (if m.little_endian then 1 else 0) := by
    unfold sliceNat
    rw [e22, List.take_left' (natToBytesLE_length 4 _)]
    refine bytesToNatLE_natToBytesLE 4 _ ?_
    split <;> norm_num
  have hwidth : sliceNat 26 4 hdr = m.image_width := by
    unfold sliceNat
    rw [e26, List.take_left' (natToBytesLE_length 4 _)]
    exact bytesToNatLE_natToBytesLE 4 _ (by omega)
  have hheight : sliceNat 30 4 hdr = m.image_height := by
    unfold sliceNat
    rw [e30, List.take_left' (natToBytesLE_length 4 _)]
    exact bytesToNatLE_natToBytesLE 4 _ (by omega)
  have hdepth : sliceNat 34 4 hdr = m.pixel_depth := by
    unfold sliceNat
    rw [e34, List.take_left' (natToBytesLE_length 4 _)]
    exact bytesToNatLE_natToBytesLE 4 _ (by omega)
  have hcount : sliceNat 38 4 hdr = m.frame_count := by
    unfold sliceNat
    rw [e38, List.take_left' (natToBytesLE_length 4 _)]
    exact bytesToNatLE_natToBytesLE 4 _ (by omega)
  have hobs : sliceBytes 42 40 hdr = packBytes 40 m.observer := by
    unfold sliceBytes
    rw [e42]
    exact List.take_left' (packBytes_length _ _)
  have hins : sliceBytes 82 40 hdr = packBytes 40 m.instrument := by
    unfold sliceBytes
    rw [e82]
    exact List.take_left' (packBytes_length _ _)
  have htel : sliceBytes 122 40 hdr = packBytes 40 m.telescope := by
    unfold sliceBytes
    rw [e122]
    exact List.take_left' (packBytes_length _ _)
  have hdt : sliceNat 162 8 hdr = m.date_time := by
    unfold sliceNat
    rw [e162, List.take_left' (natToBytesLE_length 8 _)]
    exact bytesToNatLE_natToBytesLE 8 _ (by omega)
  have hdtu : sliceNat 170 8 hdr = m.date_time_utc := by
    unfold sliceNat
    rw [e170, List.take_of_length_le (by rw [natToBytesLE_length])]
    exact bytesToNatLE_natToBytesLE 8 _ (by omega)
  have hfid' : decodeField (sliceBytes 0 14 hdr) = m.file_id := by
    rw [hfid, hid]
    decide
  unfold parseMeta decodeMeta
  rw [hfid', hlu, hcolor, hle, hwidth, hheight, hdepth, hcount, hobs, hins, htel, hdt, hdtu,
    decide_flag]

/-! ## read_ser on a packed header -/

theorem read_ser_split (m : Metadata) (hdr rest : List Nat)
    (hp : packHeader m = some hdr) (hid : m.file_id = lucamId) :
    read_ser (hdr ++ rest) =
      match readFrames (if m.pixel_depth == 8 then 1 else 2)
          (m.image_width * m.image_height * (m.pixel_depth / 8))
          m.image_height m.image_width m.frame_count rest with
      | .error e => .error e
      | .ok (frames, r') => .ok (decodeMeta m, frames, readTimestamps m.frame_count r') := by
  have hlen : hdr.length = 178 := packHeader_length m hdr hp
  have htake : (hdr ++ rest).take 178 = hdr := List.take_left' hlen
  have hdrop : (hdr ++ rest).drop 178 = rest := List.drop_left' hlen
  have hparse : parseMeta hdr = decodeMeta m := parseMeta_packHeader m hdr hp hid
  have hfid14 : hdr.take 14 = lucamId := by
    obtain ⟨_, hstruct⟩ := packHeader_some_inv m hdr hp
    rw [hstruct, List.take_left' (packBytes_length 14 m.file_id), hid]
    decide
  simp only [read_ser, htake, hdrop, hparse, hlen, hfid14]
  rw [if_neg (by omega), if_neg (by simp)]
  simp only [decodeMeta]

/-! ## write_ser success shape -/

theorem write_ser_none_ok (m : Metadata) (fs : List Frame) (hdr : List Nat)
    (hid : m.file_id = lucamId) (hcnt : fs.length = m.frame_count)
    (hph : packHeader m = some hdr)
    (hshapes : ∀ f ∈ fs, shapeOK m.image_height m.image_width f = true) :
    write_ser m fs none =
      (hdr ++ (fs.map (frameToBytes (if m.pixel_depth == 8 then 1 else 2))).flatten, none) := by
  unfold write_ser
  rw [if_neg (by simp [hid]), if_neg (fun hx => hx hcnt), hph,
    writeFrames_ok _ _ _ fs hshapes]

/-! ## Roundtrip -/

/-- A text field that survives the 40-byte window and the read-side
trimming unchanged, restricted to ASCII so that the byte-level model of
UTF-8 decode and `str.strip()` is exact. -/
def textFieldOK (f : List Nat) : Prop :=
  f.length ≤ 40 ∧ decodeField f = f ∧ ∀ b ∈ f, b < 128

instance (f : List Nat) : Decidable (textFieldOK f) := by
  unfold textFieldOK
  infer_instance

theorem decodeMeta_eq_self (m : Metadata) (hobs : textFieldOK m.observer)
    (hins : textFieldOK m.instrument) (htel : textFieldOK m.telescope) :
    decodeMeta m = m := by
  unfold decodeMeta
  rw [decodeField_packBytes_of_le 40 _ hobs.1, hobs.2.1,
    decodeField_packBytes_of_le 40 _ hins.1, hins.2.1,
    decodeField_packBytes_of_le 40 _ htel.1, htel.2.1]

theorem readTimestamps_nil (fc : Nat) :
    readTimestamps fc [] = if fc = 0 then some [] else none := by
  unfold readTimestamps
  cases fc with
  | zero => simp
  | succ n =>
    rw [if_neg (by simp), if_neg (by omega)]

theorem write_read_roundtrip (m : Metadata) (fs : List Frame)
    (hid : m.file_id = lucamId)
    (hpd : m.pixel_depth = 8 ∨ m.pixel_depth = 16)
    (hw : 0 < m.image_width) (hh : 0 < m.image_height)
    (hcnt : fs.length = m.frame_count)
    (hshape : ∀ f ∈ fs, f.length = m.image_height ∧ ∀ r ∈ f, r.length = m.image_width)
    (hsamp : ∀ f ∈ fs, ∀ r ∈ f, ∀ s ∈ r, s < 2 ^ m.pixel_depth)
    (hobs : textFieldOK m.observer) (hins : textFieldOK m.instrument)
    (htel : textFieldOK m.telescope)
    (hrng : headerRangesOK m = true) :
    (write_ser m fs none).2 = none ∧
    read_ser (write_ser m fs none).1 =
      .ok (m, fs, if m.frame_count = 0 then some [] else none) := by
  have hshapes : ∀ f ∈ fs, shapeOK m.image_height m.image_width f = true := by
    intro f hf
    obtain ⟨h1, h2⟩ := hshape f hf
    simp only [shapeOK, Bool.and_eq_true, beq_iff_eq, List.all_eq_true]
    exact ⟨h1, fun r hr => by simp [h2 r hr]⟩
  obtain ⟨hdr, hph⟩ : ∃ hdr, packHeader m = some hdr := by
    unfold packHeader
    rw [if_pos hrng]
    exact ⟨_, rfl⟩
  have hwrite := write_ser_none_ok m fs hdr hid hcnt hph hshapes
  have hes : (0:Nat) < (if m.pixel_depth == 8 then 1 else 2) := by split <;> omega
  have hfsize : m.image_width * m.image_height * (m.pixel_depth / 8) =
      m.image_height * m.image_width * (if m.pixel_depth == 8 then 1 else 2) := by
    rcases hpd with hpd | hpd <;> rw [hpd] <;> norm_num <;> ring
  have hsamp' : ∀ f ∈ fs, ∀ r ∈ f, ∀ s ∈ r,
      s < 256 ^ (if m.pixel_depth == 8 then 1 else 2) := by
    intro f hf r hr s hs
    have := hsamp f hf r hr s hs
    rcases hpd with hpd | hpd <;> rw [hpd] at this ⊢ <;> norm_num at this ⊢ <;> omega
  have hframes := readFrames_encoded (if m.pixel_depth == 8 then 1 else 2)
    (m.image_width * m.image_height * (m.pixel_depth / 8))
    m.image_height m.image_width hes hh hw hfsize fs [] hshape hsamp'
  rw [List.append_nil] at hframes
  refine ⟨by rw [hwrite], ?_⟩
  rw [hwrite]
  rw [read_ser_split m hdr _ hph hid, ← hcnt, hframes, decodeMeta_eq_self m hobs hins htel]
  show Except.ok (m, fs, readTimestamps fs.length []) =
    Except.ok (m, fs, if fs.length = 0 then some [] else none)
  rw [readTimestamps_nil]

theorem packHeader_drop42 (m : Metadata) (hdr : List Nat) (hp : packHeader m = some hdr) :
    hdr.drop 42 = packBytes 40 m.observer ++
      (packBytes 40 m.instrument ++
      (packBytes 40 m.telescope ++
      (natToBytesLE 8 m.date_time ++
      natToBytesLE 8 m.date_time_utc))) := by
  obtain ⟨_, hstruct⟩ := packHeader_some_inv m hdr hp
  have h42 : hdr.drop 42 = ((((((((hdr.drop 14).drop 4).drop 4).drop 4).drop
      4).drop 4).drop 4).drop 4) := by
    simp [List.drop_drop]
  rw [h42, hstruct,
    List.drop_left' (packBytes_length 14 m.file_id),
    List.drop_left' (natToBytesLE_length 4 m.lu_id),
    List.drop_left' (natToBytesLE_length 4 m.color_id),
    List.drop_left' (natToBytesLE_length 4 (if m.little_endian then 1 else 0)),
    List.drop_left' (natToBytesLE_length 4 m.image_width),
    List.drop_left' (natToBytesLE_length 4 m.image_height),
    List.drop_left' (natToBytesLE_length 4 m.pixel_depth),
    List.drop_left' (natToBytesLE_length 4 m.frame_count)]

/-! ## Concrete instances used by counterexamples and witnesses -/

/-- A minimal valid metadata: 1×1 8-bit, one frame, empty text fields. -/
def cleanMeta : Metadata :=
  { file_id := lucamId, lu_id := 1, color_id := 0, little_endian := true,
    image_width := 1, image_height := 1, pixel_depth := 8, frame_count := 1,
    observer := [], instrument := [], telescope := [], date_time := 0,
    date_time_utc := 0 }

/-! ## Claim C5 -/

/-- C5: decoding any input stream shorter than the fixed 178-byte header
size fails with the header-truncation error and returns no partial
result. -/
theorem C5_truncated_header (data : List Nat) (hlen : data.length < 178) :
    read_ser data = .error .headerTruncated := by
  unfold read_ser
  rw [if_pos]
  rw [List.length_take]
  omega

/-- C5 witness: the empty stream is shorter than 178 bytes and is rejected
with the truncation error. -/
theorem C5_truncated_header_witness : read_ser [] = .error .headerTruncated :=
  C5_truncated_header [] (by decide)

/-! ## Claim C9 -/

/-- C9: whenever the number of supplied frames differs from the declared
`frame_count`, `write_ser` raises one of its validation errors before the
output file is opened, so no bytes at all are written. -/
theorem C9_frame_count_mismatch (m : Metadata) (fs : List Frame)
    (ts : Option (List Nat)) (hcnt : fs.length ≠ m.frame_count) :
    (write_ser m fs ts).1 = [] ∧
    ((write_ser m fs ts).2 = some .badFileId ∨
     (write_ser m fs ts).2 = some .frameCountMismatch) := by
  unfold write_ser
  by_cases hb : m.file_id ≠ lucamId
  · rw [if_pos hb]
    exact ⟨rfl, Or.inl rfl⟩
  · rw [if_neg hb, if_pos hcnt]
    exact ⟨rfl, Or.inr rfl⟩

/-- C9 witness: supplying no frames against a declared count of 1 yields a
validation error and an empty output. -/
theorem C9_frame_count_mismatch_witness :
    (write_ser cleanMeta [] none).1 = [] ∧
    ((write_ser cleanMeta [] none).2 = some .badFileId ∨
     (write_ser cleanMeta [] none).2 = some .frameCountMismatch) :=
  C9_frame_count_mismatch cleanMeta [] none (by decide)

/-! ## Claim C10 -/

/-- C10: if a well-formed header (valid id, in-range fields, ASCII text
fields) declares at least one frame but a zero per-frame byte size
(zero width, zero height, or `pixel_depth < 8` so that
`pixel_depth // 8 == 0`), then `read_ser` always fails with the
"Unexpected end of file" error on the first frame, regardless of what
bytes follow the header. -/
theorem C10_zero_frame_size (m : Metadata) (hdr extra : List Nat)
    (hp : packHeader m = some hdr) (hid : m.file_id = lucamId)
    (hobs : ∀ b ∈ m.observer, b < 128) (hins : ∀ b ∈ m.instrument, b < 128)
    (htel : ∀ b ∈ m.telescope, b < 128)
    (hzero : m.image_width = 0 ∨ m.image_height = 0 ∨ m.pixel_depth < 8)
    (hfc : 1 ≤ m.frame_count) :
    read_ser (hdr ++ extra) = .error .eofFrames := by
  rw [read_ser_split m hdr extra hp hid]
  have hfz : m.image_width * m.image_height * (m.pixel_depth / 8) = 0 := by
    rcases hzero with hz | hz | hz
    · rw [hz]; ring
    · rw [hz]; ring
    · rw [Nat.div_eq_of_lt hz]; ring
  obtain ⟨k, hk⟩ : ∃ k, m.frame_count = k + 1 := ⟨m.frame_count - 1, by omega⟩
  rw [hfz, hk, readFrames, if_pos (by simp)]

/-- C10 witness: a complete header declaring width 0 and one frame,
followed by three stray bytes, is rejected with the end-of-file error. -/
theorem C10_zero_frame_size_witness :
    read_ser (((packHeader { cleanMeta with image_width := 0 }).getD []) ++ [1, 2, 3]) =
      .error .eofFrames :=
  C10_zero_frame_size { cleanMeta with image_width := 0 }
    ((packHeader { cleanMeta with image_width := 0 }).getD []) [1, 2, 3]
    (by decide) (by decide) (by decide) (by decide) (by decide)
    (Or.inl (by decide)) (by decide)

/-! ## Claim C3 -/

/-- Metadata with `pixel_depth = 9`: the encode side writes 2 bytes per
sample but the decode side computes a per-frame size of
`width*height*(9 // 8) = width*height` bytes. -/
def mC3 : Metadata := { cleanMeta with pixel_depth := 9, image_height := 2 }

/-- The frames for the C3 scenario: one 2×1 frame. -/
def frC3 : List Frame := [[[1], [2]]]

/-- C3: at `pixel_depth = 9` the claim fails on the code: `write_ser`
succeeds and emits 2 bytes per sample (182 = 178 + 4 bytes total), while
`read_ser` computes a per-frame byte size of `width*height*(9 // 8) = 2`,
not `width*height*2 = 4`, and consequently fails to reshape the frame it
just wrote — the encoder and decoder disagree for 8 < pixel_depth < 16. -/
theorem C3_frame_size_bug :
    (write_ser mC3 frC3 none).2 = none ∧
    (write_ser mC3 frC3 none).1.length = 182 ∧
    read_ser (write_ser mC3 frC3 none).1 = .error .reshapeMismatch ∧
    mC3.image_width * mC3.image_height * (mC3.pixel_depth / 8) = 2 ∧
    mC3.image_width * mC3.image_height * 2 = 4 := by
  refine ⟨rfl, rfl, rfl, rfl, rfl⟩

/-! ## Claim C1 -/

/-- Metadata whose observer field is a single space: valid by the claim's
conditions, but not invariant under the read-side trimming. -/
def mC1 : Metadata := { cleanMeta with observer := [32] }

/-- The frames for the C1 counterexample: one 1×1 frame. -/
def frC1 : List Frame := [[[5]]]

/-- C1 counterexample: for the valid metadata `mC1` (correct id, depth 8,
positive dimensions, matching frame count and shapes) whose observer is
the single space " ", encode succeeds but decode returns the observer
trimmed to "", so the decoded metadata is not field-for-field equal to
the input. -/
theorem C1_counterexample :
    (write_ser mC1 frC1 none).2 = none ∧
    read_ser (write_ser mC1 frC1 none).1 = .ok (cleanMeta, frC1, none) ∧
    cleanMeta ≠ mC1 :=
  ⟨by decide, by decide, by decide⟩

/-- C1 (amended): the encode-then-decode roundtrip reproduces the metadata
field-for-field and the frames bit-for-bit provided additionally that the
three text fields are ASCII, at most 40 UTF-8 bytes, and invariant under
the read-side trimming (no trailing NULs, no surrounding whitespace), and
that every integer field fits its wire width. -/
theorem C1_roundtrip (m : Metadata) (fs : List Frame)
    (hid : m.file_id = lucamId)
    (hpd : m.pixel_depth = 8 ∨ m.pixel_depth = 16)
    (hw : 0 < m.image_width) (hh : 0 < m.image_height)
    (hcnt : fs.length = m.frame_count)
    (hshape : ∀ f ∈ fs, f.length = m.image_height ∧ ∀ r ∈ f, r.length = m.image_width)
    (hsamp : ∀ f ∈ fs, ∀ r ∈ f, ∀ s ∈ r, s < 2 ^ m.pixel_depth)
    (hobs : textFieldOK m.observer) (hins : textFieldOK m.instrument)
    (htel : textFieldOK m.telescope)
    (hrng : headerRangesOK m = true) :
    (write_ser m fs none).2 = none ∧
    ∃ ts, read_ser (write_ser m fs none).1 = .ok (m, fs, ts) := by
  obtain ⟨h1, h2⟩ :=
    write_read_roundtrip m fs hid hpd hw hh hcnt hshape hsamp hobs hins htel hrng
  exact ⟨h1, _, h2⟩

/-- Sixteen-bit roundtrip witness metadata: 2×1 frames, clean "Test"
observer, realistic date_time. -/
def mW1 : Metadata :=
  { cleanMeta with
      pixel_depth := 16
      image_width := 2
      lu_id := 3
      observer := [84, 101, 115, 116]
      date_time := 637738597820000000 }

/-- The frames for the C1 witness: one 1×2 frame of 16-bit samples. -/
def frW1 : List Frame := [[[300, 65535]]]

/-- C1 witness: the amended roundtrip at a concrete 16-bit input. -/
theorem C1_roundtrip_witness :
    (write_ser mW1 frW1 none).2 = none ∧
    ∃ ts, read_ser (write_ser mW1 frW1 none).1 = .ok (mW1, frW1, ts) :=
  C1_roundtrip mW1 frW1 (by decide) (by decide) (by decide) (by decide) (by decide)
    (by decide) (by decide) (by decide) (by decide) (by decide) (by decide)

/-! ## Claim C4 -/

/-- Metadata declaring zero frames. -/
def mC4 : Metadata := { cleanMeta with frame_count := 0 }

/-- C4 counterexample: with `frame_count = 0`, encoding without timestamps
and decoding yields the timestamp result `some []` — an empty sequence,
not the absent result the claim requires for every frame count. -/
theorem C4_counterexample :
    read_ser (write_ser mC4 [] none).1 = .ok (mC4, [], some []) ∧
    some ([] : List Nat) ≠ (none : Option (List Nat)) :=
  ⟨rfl, by decide⟩

/-- C4 (amended): encoding without timestamps and decoding yields the
absent timestamp result for every `frame_count ≥ 1`; for
`frame_count = 0` it instead yields the empty sequence, because the
trailing-byte heuristic `len(remaining) >= 8*frame_count` is satisfied by
the empty remainder. -/
theorem C4_timestamp_absence (m : Metadata) (fs : List Frame)
    (hid : m.file_id = lucamId)
    (hpd : m.pixel_depth = 8 ∨ m.pixel_depth = 16)
    (hw : 0 < m.image_width) (hh : 0 < m.image_height)
    (hcnt : fs.length = m.frame_count)
    (hshape : ∀ f ∈ fs, f.length = m.image_height ∧ ∀ r ∈ f, r.length = m.image_width)
    (hsamp : ∀ f ∈ fs, ∀ r ∈ f, ∀ s ∈ r, s < 2 ^ m.pixel_depth)
    (hobs : textFieldOK m.observer) (hins : textFieldOK m.instrument)
    (htel : textFieldOK m.telescope)
    (hrng : headerRangesOK m = true) :
    read_ser (write_ser m fs none).1 =
      .ok (m, fs, if m.frame_count = 0 then some [] else none) :=
  (write_read_roundtrip m fs hid hpd hw hh hcnt hshape hsamp hobs hins htel hrng).2

/-- C4 witness: with one frame and no timestamps, decode reports the
timestamps as absent. -/
theorem C4_timestamp_absence_witness :
    read_ser (write_ser cleanMeta [[[7]]] none).1 =
      .ok (cleanMeta, [[[7]]], if cleanMeta.frame_count = 0 then some [] else none) :=
  C4_timestamp_absence cleanMeta [[[7]]] (by decide) (by decide) (by decide) (by decide)
    (by decide) (by decide) (by decide) (by decide) (by decide) (by decide) (by decide)

/-! ## Claim C2 -/

/-- Metadata for the C2 counterexample (1×1, one frame). -/
def mC2 : Metadata := { cleanMeta with lu_id := 2 }

/-- A frame of shape (2,1) against declared dimensions (1,1). -/
def frC2 : List Frame := [[[1], [2]]]

/-- C2 counterexample: a frame-shape violation is only detected inside the
write loop, after the 178-byte header has already been written — the
validation error does not precede all output, and a partial file
remains. -/
theorem C2_counterexample :
    (write_ser mC2 frC2 none).2 = some .frameShapeMismatch ∧
    (write_ser mC2 frC2 none).1 ≠ [] ∧
    (write_ser mC2 frC2 none).1.length = 178 :=
  ⟨by decide, by decide, by decide⟩

/-- C2 (amended): only the file-id and frame-count checks run before any
bytes are written; a frame-shape or timestamp-count violation is raised
during writing, after the 178-byte header (and any preceding frames) has
already been emitted, so those failures leave a partial file. -/
theorem C2_validation_order (m : Metadata) (fs : List Frame) (ts : Option (List Nat)) :
    (((write_ser m fs ts).2 = some .badFileId ∨
      (write_ser m fs ts).2 = some .frameCountMismatch) →
      (write_ser m fs ts).1 = []) ∧
    (((write_ser m fs ts).2 = some .frameShapeMismatch ∨
      (write_ser m fs ts).2 = some .timestampCountMismatch) →
      178 ≤ (write_ser m fs ts).1.length) := by
  by_cases h1 : m.file_id ≠ lucamId
  · have hw : write_ser m fs ts = ([], some .badFileId) := by
      unfold write_ser
      rw [if_pos h1]
    rw [hw]
    exact ⟨fun _ => rfl, fun hx => by rcases hx with hx | hx <;> simp at hx⟩
  · by_cases h2 : fs.length ≠ m.frame_count
    · have hw : write_ser m fs ts = ([], some .frameCountMismatch) := by
        unfold write_ser
        rw [if_neg h1, if_pos h2]
      rw [hw]
      exact ⟨fun _ => rfl, fun hx => by rcases hx with hx | hx <;> simp at hx⟩
    · cases hph : packHeader m with
      | none =>
        have hw : write_ser m fs ts = ([], some .packError) := by
          unfold write_ser
          rw [if_neg h1, if_neg h2, hph]
        rw [hw]
        exact ⟨fun hx => by rcases hx with hx | hx <;> simp at hx,
               fun hx => by rcases hx with hx | hx <;> simp at hx⟩
      | some hdr =>
        have hlen : hdr.length = 178 := packHeader_length m hdr hph
        cases hwf : writeFrames m.image_height m.image_width
            (if m.pixel_depth == 8 then 1 else 2) fs with
        | mk fb oe =>
          cases oe with
          | some e =>
            have he : e = .frameShapeMismatch :=
              writeFrames_error_shape _ _ _ fs e (by rw [hwf])
            subst he
            have hw : write_ser m fs ts = (hdr ++ fb, some .frameShapeMismatch) := by
              unfold write_ser
              rw [if_neg h1, if_neg h2, hph, hwf]
            rw [hw]
            refine ⟨fun hx => ?_, fun _ => ?_⟩
            · rcases hx with hx | hx <;> simp at hx
            · simp only [List.length_append, hlen]
              omega
          | none =>
            cases ts with
            | none =>
              have hw : write_ser m fs none = (hdr ++ fb, none) := by
                unfold write_ser
                rw [if_neg h1, if_neg h2, hph, hwf]
              rw [hw]
              exact ⟨fun hx => by rcases hx with hx | hx <;> simp at hx,
                     fun hx => by rcases hx with hx | hx <;> simp at hx⟩
            | some tl =>
              by_cases hemp : tl.isEmpty
              · have hw : write_ser m fs (some tl) = (hdr ++ fb, none) := by
                  unfold write_ser
                  rw [if_neg h1, if_neg h2, hph, hwf]
                  show (if tl.isEmpty = true then (hdr ++ fb, none)
                      else if tl.length ≠ m.frame_count then
                        (hdr ++ fb, some WriteError.timestampCountMismatch)
                      else (hdr ++ fb ++ (packTimestamps tl).1, (packTimestamps tl).2)) = _
                  rw [if_pos hemp]
                rw [hw]
                exact ⟨fun hx => by rcases hx with hx | hx <;> simp at hx,
                       fun hx => by rcases hx with hx | hx <;> simp at hx⟩
              · by_cases hcnt : tl.length ≠ m.frame_count
                · have hw : write_ser m fs (some tl) =
                      (hdr ++ fb, some .timestampCountMismatch) := by
                    unfold write_ser
                    rw [if_neg h1, if_neg h2, hph, hwf]
                    show (if tl.isEmpty = true then (hdr ++ fb, none)
                      else if tl.length ≠ m.frame_count then
                        (hdr ++ fb, some WriteError.timestampCountMismatch)
                      else (hdr ++ fb ++ (packTimestamps tl).1, (packTimestamps tl).2)) = _
                    rw [if_neg hemp, if_pos hcnt]
                  rw [hw]
                  refine ⟨fun hx => ?_, fun _ => ?_⟩
                  · rcases hx with hx | hx <;> simp at hx
                  · simp only [List.length_append, hlen]
                    omega
                · have hw : write_ser m fs (some tl) =
                      (hdr ++ fb ++ (packTimestamps tl).1, (packTimestamps tl).2) := by
                    unfold write_ser
                    rw [if_neg h1, if_neg h2, hph, hwf]
                    show (if tl.isEmpty = true then (hdr ++ fb, none)
                      else if tl.length ≠ m.frame_count then
                        (hdr ++ fb, some WriteError.timestampCountMismatch)
                      else (hdr ++ fb ++ (packTimestamps tl).1, (packTimestamps tl).2)) = _
                    rw [if_neg hemp, if_neg hcnt]
                  rw [hw]
                  refine ⟨fun hx => ?_, fun hx => ?_⟩ <;>
                    rcases hx with hx | hx <;>
                      have hpe := packTimestamps_error_pack tl _ hx <;> simp at hpe

/-- C2 witness: at the counterexample input the shape error arrives with
178 bytes already written, and a bad file id aborts with nothing
written. -/
theorem C2_validation_order_witness :
    178 ≤ (write_ser mC2 frC2 none).1.length ∧
    (write_ser { cleanMeta with file_id := [88] } [] none).1 = [] :=
  ⟨(C2_validation_order mC2 frC2 none).2 (Or.inl (by decide)),
   (C2_validation_order { cleanMeta with file_id := [88] } [] none).1 (Or.inl (by decide))⟩

/-! ## Claim C6 -/

/-- Metadata declaring 24-bit samples on a 1×2 image: the decode loop then
wants `1*2*(24 // 8) = 6` bytes per frame but reinterprets them as 2-byte
samples, so 4 bytes already reshape successfully. -/
def mC6 : Metadata :=
  { cleanMeta with
      pixel_depth := 24
      image_height := 2 }

/-- A file consisting of a well-formed header for `mC6` followed by only 4
of the 6 declared frame bytes. -/
def bytesC6 : List Nat := ((packHeader mC6).getD []) ++ [7, 7, 7, 7]

/-- C6 counterexample: at `pixel_depth = 24` a frame short of the declared
per-frame byte size decodes successfully — 4 bytes remain where
`1*2*(24 // 8) = 6` are required, yet `read_ser` returns a frame instead
of failing. -/
theorem C6_counterexample :
    (bytesC6.drop 178).length <
      mC6.frame_count * (mC6.image_width * mC6.image_height * (mC6.pixel_depth / 8)) ∧
    read_ser bytesC6 = .ok (mC6, [[[1799], [1799]]], none) :=
  ⟨by decide, by decide⟩

/-- C6 (amended): for `pixel_depth = 8` or `16 ≤ pixel_depth ≤ 23` — the
depths at which the byte-size formula `w*h*(pd // 8)` agrees with the
sample width the loop uses — the frame loop consumes exactly the
per-frame byte size for each of the `frame_count` frames, and fails with
an error (end-of-file, buffer-size, or reshape) whenever fewer bytes
remain than required; for other depths, such as 24, a short frame can
decode successfully. -/
theorem C6_frame_reads (pd h w fc : Nat) (rest : List Nat)
    (hpd : pd = 8 ∨ (16 ≤ pd ∧ pd ≤ 23)) :
    (rest.length < fc * (w * h * (pd / 8)) →
      ∃ e, readFrames (if pd == 8 then 1 else 2) (w * h * (pd / 8)) h w fc rest =
        .error e) ∧
    (∀ fl rest',
      readFrames (if pd == 8 then 1 else 2) (w * h * (pd / 8)) h w fc rest =
        .ok (fl, rest') →
      rest' = rest.drop (fc * (w * h * (pd / 8))) ∧
      fc * (w * h * (pd / 8)) ≤ rest.length) := by
  have hfe : w * h * (pd / 8) = w * h * (if pd == 8 then 1 else 2) := by
    rcases hpd with hpd | hpd
    · subst hpd
      rfl
    · have hne : pd ≠ 8 := by omega
      have h8 : pd / 8 = 2 := by omega
      simp [hne, h8]
  exact readFrames_truncation _ _ h w hfe fc rest

/-- C6 witness: one 8-bit 1×1 frame read from a one-byte remainder
consumes exactly one byte and leaves nothing. -/
theorem C6_frame_reads_witness :
    readFrames (if 8 == 8 then 1 else 2) (1 * 1 * (8 / 8)) 1 1 1 [42] =
      .ok ([[[42]]], []) ∧
    (([] : List Nat) = [42].drop (1 * (1 * 1 * (8 / 8))) ∧
      1 * (1 * 1 * (8 / 8)) ≤ [42].length) :=
  ⟨by decide, (C6_frame_reads 8 1 1 1 [42] (Or.inl rfl)).2 [[[42]]] [] (by decide)⟩

/-! ## Claim C7 -/

/-- Metadata whose observer is 41 bytes of "A", one byte over the fixed
40-byte field width, declaring zero frames. -/
def mC7 : Metadata :=
  { cleanMeta with
      observer := List.replicate 41 65
      frame_count := 0 }

/-- C7 counterexample: an observer longer than 40 UTF-8 bytes does not
make `write_ser` fail — `struct.pack` silently truncates the field and
the write succeeds. -/
theorem C7_counterexample :
    40 < mC7.observer.length ∧ (write_ser mC7 [] none).2 = none :=
  ⟨by decide, by decide⟩

/-- C7 (amended): `write_ser` fails with the validation error when
`file_id` is not exactly "LUCAM-RECORDER"; an oversized text field,
however, is silently truncated to its fixed 40-byte width in the packed
header (padded with NULs when shorter) rather than rejected. -/
theorem C7_text_fields (m : Metadata) (fs : List Frame) (ts : Option (List Nat)) :
    (m.file_id ≠ lucamId → write_ser m fs ts = ([], some .badFileId)) ∧
    (∀ hdr, packHeader m = some hdr →
      (hdr.drop 42).take 40 =
        m.observer.take 40 ++ List.replicate (40 - m.observer.length) 0) := by
  constructor
  · intro hbad
    unfold write_ser
    rw [if_pos hbad]
  · intro hdr hp
    rw [packHeader_drop42 m hdr hp, List.take_left' (packBytes_length 40 m.observer)]
    rfl

/-- Metadata with a wrong file id. -/
def mBadId : Metadata := { cleanMeta with file_id := [88] }

/-- The packed header for the oversized-observer metadata `mC7`. -/
def hdrC7 : List Nat := (packHeader mC7).getD []

/-- C7 witness: the wrong-id write aborts with the validation error, and
the 41-byte observer is written truncated to its first 40 bytes. -/
theorem C7_text_fields_witness :
    write_ser mBadId [] none = ([], some .badFileId) ∧
    (hdrC7.drop 42).take 40 =
      mC7.observer.take 40 ++ List.replicate (40 - mC7.observer.length) 0 :=
  ⟨(C7_text_fields mBadId [] none).1 (by decide),
   (C7_text_fields mC7 [] none).2 hdrC7 (by decide)⟩

/-! ## Claim C8 -/

/-- C8 counterexample: an empty timestamp list supplied against
`frame_count = 1` raises no error at all — `if timestamps:` treats it
like `None`, the write succeeds, and no timestamp block is written
(output is exactly header + one frame byte = 179 bytes). -/
theorem C8_counterexample :
    ([] : List Nat).length ≠ cleanMeta.frame_count ∧
    (write_ser cleanMeta [[[9]]] (some [])).2 = none ∧
    (write_ser cleanMeta [[[9]]] (some [])).1.length = 179 :=
  ⟨by decide, by decide, by decide⟩

/-- C8 (amended): when the rest of the encode call is valid, a supplied
non-empty timestamp sequence whose length differs from `frame_count`
fails with the validation error (with the header and frames already
written); an empty sequence is silently treated as absent; and a
timestamp block is written if and only if a non-empty sequence of length
`frame_count` was supplied, as `frame_count` little-endian u64 values
appended after the frames. -/
theorem C8_timestamp_block (m : Metadata) (fs : List Frame) (tl : List Nat)
    (hok : (write_ser m fs none).2 = none) (hts : ∀ t ∈ tl, t < 2 ^ 64) :
    (tl = [] → write_ser m fs (some tl) = write_ser m fs none) ∧
    (tl ≠ [] → tl.length ≠ m.frame_count →
      write_ser m fs (some tl) =
        ((write_ser m fs none).1, some .timestampCountMismatch)) ∧
    (tl ≠ [] → tl.length = m.frame_count →
      write_ser m fs (some tl) =
        ((write_ser m fs none).1 ++ (tl.map (natToBytesLE 8)).flatten, none)) := by
  by_cases h1 : m.file_id ≠ lucamId
  · exfalso
    have hw : write_ser m fs none = ([], some .badFileId) := by
      unfold write_ser
      rw [if_pos h1]
    rw [hw] at hok
    simp at hok
  · by_cases h2 : fs.length ≠ m.frame_count
    · exfalso
      have hw : write_ser m fs none = ([], some .frameCountMismatch) := by
        unfold write_ser
        rw [if_neg h1, if_pos h2]
      rw [hw] at hok
      simp at hok
    · cases hph : packHeader m with
      | none =>
        exfalso
        have hw : write_ser m fs none = ([], some .packError) := by
          unfold write_ser
          rw [if_neg h1, if_neg h2, hph]
        rw [hw] at hok
        simp at hok
      | some hdr =>
        cases hwf : writeFrames m.image_height m.image_width
            (if m.pixel_depth == 8 then 1 else 2) fs with
        | mk fb oe =>
          cases oe with
          | some e =>
            exfalso
            have hw : write_ser m fs none = (hdr ++ fb, some e) := by
              unfold write_ser
              rw [if_neg h1, if_neg h2, hph, hwf]
            rw [hw] at hok
            simp at hok
          | none =>
            have hwnone : write_ser m fs none = (hdr ++ fb, none) := by
              unfold write_ser
              rw [if_neg h1, if_neg h2, hph, hwf]
            have hwsome : write_ser m fs (some tl) =
                (if tl.isEmpty then (hdr ++ fb, none)
                 else if tl.length ≠ m.frame_count then
                   (hdr ++ fb, some .timestampCountMismatch)
                 else (hdr ++ fb ++ (packTimestamps tl).1, (packTimestamps tl).2)) := by
              unfold write_ser
              rw [if_neg h1, if_neg h2, hph, hwf]
            refine ⟨?_, ?_, ?_⟩
            · intro hnil
              subst hnil
              rw [hwsome, hwnone]
              rfl
            · intro hne hcnt
              have hemp : tl.isEmpty = false := by
                cases tl with
                | nil => exact absurd rfl hne
                | cons a b => rfl
              rw [hwsome, hwnone, hemp]
              rw [if_neg (by simp), if_pos hcnt]
            · intro hne hcnt
              have hemp : tl.isEmpty = false := by
                cases tl with
                | nil => exact absurd rfl hne
                | cons a b => rfl
              rw [hwsome, hwnone, hemp]
              rw [if_neg (by simp), if_neg (fun hx => hx hcnt),
                packTimestamps_ok tl hts, List.append_assoc]

/-- One valid timestamp for the C8 witness. -/
def tlW8 : List Nat := [637738597820000000]

/-- C8 witness: with one frame, a matching one-element timestamp list is
appended as a single u64 block; a two-element list instead raises the
count-mismatch error after the frame bytes. -/
theorem C8_timestamp_block_witness :
    write_ser cleanMeta [[[9]]] (some tlW8) =
      ((write_ser cleanMeta [[[9]]] none).1 ++ (tlW8.map (natToBytesLE 8)).flatten, none) ∧
    write_ser cleanMeta [[[9]]] (some [1, 2]) =
      ((write_ser cleanMeta [[[9]]] none).1, some .timestampCountMismatch) :=
  ⟨(C8_timestamp_block cleanMeta [[[9]]] tlW8 (by decide) (by decide)).2.2
      (by decide) (by decide),
   (C8_timestamp_block cleanMeta [[[9]]] [1, 2] (by decide) (by decide)).2.1
      (by decide) (by decide)⟩

end SerPy
